import Mathlib

/-!
Shallow embedding of the IsoML repository's Isolation-Kernel feature mapper
(`src/IsoML/kernel/_isokernel.py`, class `IsoKernel`) together with the
spec-modelled ensemble partition builder (the strategy modules `_ik_anne.py`,
`_ik_inne.py`, `_ik_iforest.py` imported by `_isokernel.py`) and the
spec-modelled density clustering engine IKDC (`isoml.cluster`, of which only
the test file is in the repository snapshot).

Numeric conventions: Python ints are embedded as `ℤ`, floats as `ℚ`
(`int(...)` truncation of a nonnegative product is `Int.floor`), numpy
binary feature matrices as `List (List ℕ)`, and similarity matrices as
`List (List ℚ)`.  Python exceptions are embedded as explicit error values;
a method that mutates `self` and may raise returns the mutated state
together with an optional error, since attribute assignments performed
before a `raise` persist on the Python object.
-/

/-- A data point: a fixed-length vector of numeric features. -/
abbrev Point := List ℚ

/-- Modelled from the spec (§3 "Partition", §4.1): the strategy modules
`_ik_anne.py` / `_ik_inne.py` / `_ik_iforest.py` are not part of the
repository snapshot.  Per the spec, a fitted Partition "exposes a
deterministic mapping from any point in feature space to exactly one cell
index" below its cell count (`psi` cells for the Voronoi/ball variants, at
most `psi` leaves for the tree variant). -/
structure Partition where
  numCells : ℕ
  assign : Point → ℕ
  assign_lt : ∀ p : Point, assign p < numCells

/-- The `max_samples` constructor argument of `IsoKernel`: a Python string,
int or float. -/
inductive MaxSamples where
  | str (s : String)
  | int (m : ℤ)
  | float (f : ℚ)
deriving DecidableEq

/-- The Python exceptions that `_isokernel.py` can surface:
`NotFittedError` (from `sklearn.utils.validation.check_is_fitted`),
`ValueError` (explicit `raise` statements and `check_array` rejections) and
`AttributeError` (access to an attribute that was never assigned). -/
inductive IKError where
  | notFitted
  | valueError (msg : String)
  | attributeError (attr : String)
deriving DecidableEq

/-- The base-estimator ensemble object (`IK_ANNE` / `IK_INNE` / `IK_IForest`
instance stored in `self.iso_kernel_`): constructor arguments
`n_estimators` and `max_samples`, plus the fitted ensemble (absent until its
own `fit` ran successfully). -/
structure InnerKernel where
  t : ℤ
  psi : ℤ
  ensemble_ : Option (List Partition)

/-- Modelled from the spec (§4.1 Ensemble Builder, §7): fitting the inner
kernel draws `n_estimators` independent seeded subsamples and builds one
Partition from each; `n_estimators ≤ 0` is an error and a degenerate
subsample size (`max_samples` resolved to `0`, hence also to a negative
int) is an error.  The randomized per-estimator Partition construction is
abstracted by the oracle `g`: `g i` stands for the Partition built from the
`i`-th seeded subsample. -/
def InnerKernel.fit (ik : InnerKernel) (g : ℕ → Partition) :
    Except IKError InnerKernel :=
  if ik.t ≤ 0 then .error (.valueError "n_estimators must be positive")
  else if ik.psi ≤ 0 then
    .error (.valueError "max_samples resolved to a degenerate partition size")
  else .ok { ik with ensemble_ := some ((List.range ik.t.toNat).map g) }

/-- One-hot indicator of cell `i` among `m` cells. -/
def oneHot (m i : ℕ) : List ℕ :=
  (List.range m).map (fun j => if j = i then 1 else 0)

/-- The embedding of one point: the concatenation, over the ensemble, of the
one-hot indicator of the cell the point falls into (spec §3 "Embedding",
§4.2). -/
def embedRow (ens : List Partition) (p : Point) : List ℕ :=
  (ens.map (fun P => oneHot P.numCells (P.assign p))).flatten

/-- Modelled from the spec (§4.2): the inner kernel's `transform` maps every
point through every Partition of the fitted ensemble and concatenates the
one-hot cell indicators; calling it before a successful fit is an error. -/
def InnerKernel.transform (ik : InnerKernel) (X : List Point) :
    Except IKError (List (List ℕ)) :=
  match ik.ensemble_ with
  | none => .error .notFitted
  | some ens => .ok (X.map (embedRow ens))

/-- `sklearn.utils.check_array` on a 2-d input, restricted to what the spec
keeps in scope (shape checks): a rectangular matrix with at least one sample
and at least one feature. -/
def checkArray (X : List Point) : Bool :=
  decide (0 < X.length) &&
    X.all (fun r => r.length = (X.headD []).length) &&
      decide (0 < (X.headD []).length)

/-- The `max_samples` resolution block of `IsoKernel.fit`
(`_isokernel.py` lines 94-119).  Returns the resolved subsample size
together with a flag recording whether the size-clamp diagnostic warning
was emitted. -/
def resolveMaxSamples (ms : MaxSamples) (n_samples : ℤ) :
    Except IKError (ℤ × Bool) :=
  match ms with
  | .str s =>
      if s = "auto" then .ok (min 16 n_samples, false)
      else .error (.valueError "max_samples (str) is not supported")
  | .int m =>
      if m > n_samples then .ok (n_samples, true)
      else .ok (m, false)
  | .float f =>
      if 0 < f ∧ f ≤ 1 then .ok (⌊f * (n_samples : ℚ)⌋, false)
      else .error (.valueError "max_samples must be in (0, 1]")

/-- The attributes of an `IsoKernel` estimator: the four constructor
parameters and the attributes assigned during `fit` (absent on a fresh
instance). -/
structure IsoKernelState where
  method : String
  n_estimators : ℤ
  max_samples : MaxSamples
  max_samples_ : Option ℤ
  iso_kernel_ : Option InnerKernel
  is_fitted_ : Bool

/-- `IsoKernel.__init__`: stores the parameters; no fitted attributes. -/
def IsoKernelState.init (method : String) (n_estimators : ℤ)
    (max_samples : MaxSamples) : IsoKernelState :=
  ⟨method, n_estimators, max_samples, none, none, false⟩

/-- `sklearn.utils.validation.check_is_fitted(self)` with no attribute list:
the estimator counts as fitted iff some instance attribute with a trailing
underscore has been assigned. -/
def checkIsFitted (st : IsoKernelState) : Bool :=
  st.max_samples_.isSome || st.iso_kernel_.isSome || st.is_fitted_

/-- `IsoKernel.fit` (`_isokernel.py` lines 81-142): validate `X`, resolve
`max_samples` and store it as `max_samples_`, dispatch on `method` to build
the inner kernel, fit it, and only then set `is_fitted_`.  The result is the
(possibly partially) mutated state, the warning flag, and the raised
exception if any. -/
def IsoKernelState.fit (st : IsoKernelState) (X : List Point)
    (g : ℕ → Partition) : IsoKernelState × Bool × Option IKError :=
  if checkArray X then
    match resolveMaxSamples st.max_samples (X.length : ℤ) with
    | .error e => (st, false, some e)
    | .ok (ms, warned) =>
        let st1 := { st with max_samples_ := some ms }
        if st.method = "anne" || st.method = "inne" || st.method = "iforest"
        then
          let inner : InnerKernel := ⟨st.n_estimators, ms, none⟩
          let st2 := { st1 with iso_kernel_ := some inner }
          match inner.fit g with
          | .error e => (st2, warned, some e)
          | .ok innerF =>
              ({ st2 with iso_kernel_ := some innerF, is_fitted_ := true },
                warned, none)
        else (st1, warned, some (.valueError "method is not supported"))
  else (st, false, some (.valueError "check_array rejected X"))

/-- `IsoKernel.transform` (`_isokernel.py` lines 158-172):
`check_is_fitted(self)`, `check_array(X)`, then delegate to
`self.iso_kernel_.transform(X)`. -/
def IsoKernelState.transform (st : IsoKernelState) (X : List Point) :
    Except IKError (List (List ℕ)) :=
  if checkIsFitted st then
    if checkArray X then
      match st.iso_kernel_ with
      | none => .error (.attributeError "iso_kernel_")
      | some ik => ik.transform X
    else .error (.valueError "check_array rejected X")
  else .error .notFitted

/-- Inner product of two rows of the binary feature matrix
(one row of `np.inner(embed_X, embed_X)`). -/
def innerProd (a b : List ℕ) : ℕ :=
  (List.zipWith (· * ·) a b).sum

/-- `IsoKernel.similarity` (`_isokernel.py` lines 144-156):
`transform(X)` followed by `np.inner(embed_X, embed_X) / self.n_estimators`. -/
def IsoKernelState.similarity (st : IsoKernelState) (X : List Point) :
    Except IKError (List (List ℚ)) :=
  match st.transform X with
  | .error e => .error e
  | .ok E =>
      .ok (E.map (fun r => E.map (fun s =>
        (innerProd r s : ℚ) / (st.n_estimators : ℚ))))

/-- The spec's description of the similarity computation (§4.3): the
pairwise inner product of an embedding matrix, divided by `n_estimators`. -/
def pairwiseInnerDiv (E : List (List ℕ)) (t : ℤ) : List (List ℚ) :=
  E.map (fun r => E.map (fun s => (innerProd r s : ℚ) / (t : ℚ)))

/-- Entry `(i, j)` of a matrix held as a list of rows (`0` out of range). -/
def matGet (S : List (List ℚ)) (i j : ℕ) : ℚ :=
  ((S[i]?.getD [])[j]?).getD 0

/-- A demonstration partition used by concrete witnesses: two cells split at
feature value `0`. -/
def demoPartition : Partition :=
  ⟨2, fun p => if p.headD 0 ≤ 0 then 0 else 1, by
    intro p
    dsimp only
    split <;> omega⟩

/-- A demonstration partition oracle: every estimator draws `demoPartition`. -/
def demoG : ℕ → Partition := fun _ => demoPartition

example :
    (IsoKernelState.fit (IsoKernelState.init "anne" 2 (.int 2))
        [[0], [1]] demoG).2 = (false, none) := by
  rfl

example :
    ((IsoKernelState.fit (IsoKernelState.init "anne" 2 (.int 2))
        [[0], [1]] demoG).1).transform [[0], [1]] =
      .ok [[1, 0, 1, 0], [0, 1, 0, 1]] := by
  rfl

theorem oneHot_length (m i : ℕ) : (oneHot m i).length = m := by
  simp [oneHot]

theorem sum_indicator_range (m i : ℕ) (h : i < m) :
    ((List.range m).map (fun j => if j = i then (1 : ℕ) else 0)).sum = 1 := by
  induction m with
  | zero => omega
  | succ m ih =>
      rw [List.range_succ, List.map_append, List.sum_append]
      rcases Nat.lt_succ_iff_lt_or_eq.mp h with h' | h'
      · rw [ih h']
        have : m ≠ i := Nat.ne_of_gt h'
        simp [this]
      · subst h'
        have : ∀ j ∈ List.range i, (if j = i then (1 : ℕ) else 0) = 0 := by
          intro j hj
          have := List.mem_range.mp hj
          simp [Nat.ne_of_lt this]
        rw [List.map_congr_left this]
        simp

theorem innerProd_nil : innerProd [] [] = 0 := rfl

theorem innerProd_append (a b c d : List ℕ) (h : a.length = c.length) :
    innerProd (a ++ b) (c ++ d) = innerProd a c + innerProd b d := by
  unfold innerProd
  rw [List.zipWith_append _ _ _ _ _ h, List.sum_append]

theorem innerProd_oneHot (m i j : ℕ) (hi : i < m) :
    innerProd (oneHot m i) (oneHot m j) = if i = j then 1 else 0 := by
  unfold innerProd oneHot
  rw [List.zipWith_map, List.zipWith_same]
  by_cases hij : i = j
  · subst hij
    have : ∀ x ∈ List.range m,
        (if x = i then (1 : ℕ) else 0) * (if x = i then 1 else 0) =
          if x = i then 1 else 0 := by
      intro x _
      by_cases hx : x = i <;> simp [hx]
    rw [List.map_congr_left this]
    simp [sum_indicator_range m i hi]
  · simp only [hij, if_false]
    apply List.sum_eq_zero
    intro x hx
    rcases List.mem_map.mp hx with ⟨y, _, rfl⟩
    by_cases hy : y = i
    · simp [hy, hij]
    · simp [hy]

/-- The number of estimators of the ensemble that place `p` and `q` in the
same cell. -/
def countAgree (ens : List Partition) (p q : Point) : ℕ :=
  (ens.filter (fun P => decide (P.assign p = P.assign q))).length

theorem embedRow_cons (P : Partition) (ens : List Partition) (p : Point) :
    embedRow (P :: ens) p = oneHot P.numCells (P.assign p) ++ embedRow ens p := by
  simp [embedRow]

theorem innerProd_embedRow (ens : List Partition) (p q : Point) :
    innerProd (embedRow ens p) (embedRow ens q) = countAgree ens p q := by
  induction ens with
  | nil => rfl
  | cons P ens ih =>
      rw [embedRow_cons, embedRow_cons,
        innerProd_append _ _ _ _ (by rw [oneHot_length, oneHot_length]),
        innerProd_oneHot _ _ _ (P.assign_lt p), ih]
      unfold countAgree
      rw [List.filter_cons]
      by_cases hPq : P.assign p = P.assign q <;> simp [hPq, Nat.add_comm]

theorem countAgree_le (ens : List Partition) (p q : Point) :
    countAgree ens p q ≤ ens.length :=
  List.length_filter_le _ _

theorem countAgree_self (ens : List Partition) (p : Point) :
    countAgree ens p p = ens.length := by
  unfold countAgree
  rw [List.filter_length_eq_length.mpr]
  intro a _
  simp

theorem countAgree_comm (ens : List Partition) (p q : Point) :
    countAgree ens p q = countAgree ens q p := by
  unfold countAgree
  congr 1
  apply List.filter_congr
  intro P _
  simp [eq_comm]

theorem countAgree_eq_length_iff (ens : List Partition) (p q : Point) :
    countAgree ens p q = ens.length ↔
      ∀ P ∈ ens, P.assign p = P.assign q := by
  unfold countAgree
  rw [List.filter_length_eq_length]
  simp

theorem innerFit_ok (ik ikF : InnerKernel) (g : ℕ → Partition)
    (h : ik.fit g = .ok ikF) :
    0 < ik.t ∧ 0 < ik.psi ∧
      ikF = ⟨ik.t, ik.psi, some ((List.range ik.t.toNat).map g)⟩ := by
  unfold InnerKernel.fit at h
  split at h
  · exact absurd h (by simp)
  · split at h
    · exact absurd h (by simp)
    · refine ⟨by omega, by omega, ?_⟩
      cases ik
      simpa using h.symm

theorem fit_ok_spec (st₀ : IsoKernelState) (X : List Point)
    (g : ℕ → Partition) (st : IsoKernelState) (w : Bool)
    (h : IsoKernelState.fit st₀ X g = (st, w, none)) :
    0 < st₀.n_estimators ∧ st.n_estimators = st₀.n_estimators ∧
      st.is_fitted_ = true ∧
      ∃ ms : ℤ, 0 < ms ∧ st.max_samples_ = some ms ∧
        st.iso_kernel_ = some
          ⟨st₀.n_estimators, ms, some ((List.range st₀.n_estimators.toNat).map g)⟩ := by
  unfold IsoKernelState.fit at h
  split at h
  · split at h
    · exact absurd (congrArg (fun z => z.2.2) h) (by simp)
    · rename_i ms warned heq
      dsimp only at h
      split at h
      · split at h
        · exact absurd (congrArg (fun z => z.2.2) h) (by simp)
        · rename_i ikF hik
          obtain ⟨ht, hpsi, hikF⟩ := innerFit_ok _ _ _ hik
          rw [Prod.mk.injEq, Prod.mk.injEq] at h
          obtain ⟨h1, h2, h3⟩ := h
          subst h1
          exact ⟨ht, by simp, by simp, ms, hpsi, by simp, by simp [hikF]⟩
      · exact absurd (congrArg (fun z => z.2.2) h) (by simp)
  · exact absurd (congrArg (fun z => z.2.2) h) (by simp)

theorem transform_ok_spec (st : IsoKernelState) (Y : List Point)
    (ik : InnerKernel) (ens : List Partition) (E : List (List ℕ))
    (hik : st.iso_kernel_ = some ik) (hens : ik.ensemble_ = some ens)
    (hE : st.transform Y = .ok E) : E = Y.map (embedRow ens) := by
  unfold IsoKernelState.transform at hE
  split at hE
  · split at hE
    · simp only [hik, InnerKernel.transform, hens] at hE
      exact (Except.ok.inj hE).symm
    · simp at hE
  · simp at hE

theorem count_one_eq_sum (l : List ℕ) (h : ∀ b ∈ l, b = 0 ∨ b = 1) :
    l.count 1 = l.sum := by
  induction l with
  | nil => rfl
  | cons a l ih =>
      rw [List.count_cons, List.sum_cons,
        ih (fun b hb => h b (List.mem_cons_of_mem a hb))]
      rcases h a (List.mem_cons_self a l) with rfl | rfl <;>
        simp [Nat.add_comm]

theorem oneHot_mem_binary (m i : ℕ) : ∀ b ∈ oneHot m i, b = 0 ∨ b = 1 := by
  intro b hb
  rcases List.mem_map.mp hb with ⟨j, _, rfl⟩
  by_cases hj : j = i <;> simp [hj]

theorem oneHot_count_one (m i : ℕ) (h : i < m) : (oneHot m i).count 1 = 1 := by
  rw [count_one_eq_sum _ (oneHot_mem_binary m i)]
  unfold oneHot
  exact sum_indicator_range m i h

theorem sum_map_one {α : Type} (l : List α) :
    (l.map (fun _ => (1 : ℕ))).sum = l.length := by
  induction l with
  | nil => rfl
  | cons a l ih => simp [ih, Nat.add_comm]

/-- **C1**: for every fitted `IsoKernel` model and every input `X` accepted
by `transform`, `similarity(X)` equals the pairwise inner product of the
matrix returned by `transform(X)` with itself, divided by `n_estimators`. -/
theorem C1_similarity_is_normalized_inner_product (st : IsoKernelState)
    (X : List Point) (E : List (List ℕ)) (h : st.transform X = .ok E) :
    st.similarity X = .ok (pairwiseInnerDiv E st.n_estimators) := by
  unfold IsoKernelState.similarity pairwiseInnerDiv
  rw [h]

/-- A concretely fitted demonstration model: `method="anne"`,
`n_estimators=2`, `max_samples=2`, fitted on two one-dimensional points. -/
def fittedDemo : IsoKernelState :=
  (IsoKernelState.fit (IsoKernelState.init "anne" 2 (.int 2))
    [[0], [1]] demoG).1

/-- Witness for C1: the theorem applied to a concretely fitted model. -/
theorem C1_witness :
    fittedDemo.similarity [[0], [1]] =
      .ok (pairwiseInnerDiv [[1, 0, 1, 0], [0, 1, 0, 1]]
        fittedDemo.n_estimators) :=
  C1_similarity_is_normalized_inner_product fittedDemo [[0], [1]]
    [[1, 0, 1, 0], [0, 1, 0, 1]] rfl

/-- **C3**: for every fitted `IsoKernel` model (whatever the method) and
every input accepted by `transform`, every row of the returned matrix is
binary and has exactly `n_estimators` set bits, one per estimator block. -/
theorem C3_transform_rows_are_one_hot_blocks (st₀ : IsoKernelState)
    (X Y : List Point) (g : ℕ → Partition) (st : IsoKernelState) (w : Bool)
    (hfit : IsoKernelState.fit st₀ X g = (st, w, none))
    (E : List (List ℕ)) (hE : st.transform Y = .ok E) :
    ∀ r ∈ E, (∀ b ∈ r, b = 0 ∨ b = 1) ∧
      r.count 1 = st₀.n_estimators.toNat ∧
      ∃ blocks : List (List ℕ), r = blocks.flatten ∧
        blocks.length = st₀.n_estimators.toNat ∧
        ∀ blk ∈ blocks, blk.count 1 = 1 := by
  obtain ⟨ht, hne, hf, ms, hms, hmss, hik⟩ := fit_ok_spec _ _ _ _ _ hfit
  have hEY := transform_ok_spec st Y _ _ E hik rfl hE
  subst hEY
  intro r hr
  rcases List.mem_map.mp hr with ⟨p, hp, rfl⟩
  have hlen : ((List.range st₀.n_estimators.toNat).map g).length =
      st₀.n_estimators.toNat := by simp
  have hbin : ∀ b ∈ embedRow ((List.range st₀.n_estimators.toNat).map g) p,
      b = 0 ∨ b = 1 := by
    intro b hb
    unfold embedRow at hb
    rcases List.mem_flatten.mp hb with ⟨blk, hblk, hbblk⟩
    rcases List.mem_map.mp hblk with ⟨P, _, rfl⟩
    exact oneHot_mem_binary _ _ b hbblk
  refine ⟨hbin, ?_, ?_⟩
  · unfold embedRow
    rw [List.count_flatten]
    have hcongr : (((List.range st₀.n_estimators.toNat).map g).map
          (fun P => oneHot P.numCells (P.assign p))).map (·.count 1) =
        (((List.range st₀.n_estimators.toNat).map g).map
          (fun P => oneHot P.numCells (P.assign p))).map (fun _ => 1) := by
      apply List.map_congr_left
      intro blk hblk
      rcases List.mem_map.mp hblk with ⟨P, _, rfl⟩
      exact oneHot_count_one _ _ (P.assign_lt p)
    rw [hcongr, sum_map_one]
    simp
  · refine ⟨((List.range st₀.n_estimators.toNat).map g).map
      (fun P => oneHot P.numCells (P.assign p)), ?_, ?_, ?_⟩
    · rfl
    · simp
    · intro blk hblk
      rcases List.mem_map.mp hblk with ⟨P, _, rfl⟩
      exact oneHot_count_one _ _ (P.assign_lt p)

/-- Witness for C3: the theorem applied to a concretely fitted model, at the
two rows of the concrete embedding matrix. -/
theorem C3_witness :
    ((∀ b ∈ ([1, 0, 1, 0] : List ℕ), b = 0 ∨ b = 1) ∧
      ([1, 0, 1, 0] : List ℕ).count 1 = (2 : ℤ).toNat ∧
      ∃ blocks : List (List ℕ), ([1, 0, 1, 0] : List ℕ) = blocks.flatten ∧
        blocks.length = (2 : ℤ).toNat ∧
        ∀ blk ∈ blocks, blk.count 1 = 1) ∧
    ((∀ b ∈ ([0, 1, 0, 1] : List ℕ), b = 0 ∨ b = 1) ∧
      ([0, 1, 0, 1] : List ℕ).count 1 = (2 : ℤ).toNat ∧
      ∃ blocks : List (List ℕ), ([0, 1, 0, 1] : List ℕ) = blocks.flatten ∧
        blocks.length = (2 : ℤ).toNat ∧
        ∀ blk ∈ blocks, blk.count 1 = 1) :=
  ⟨C3_transform_rows_are_one_hot_blocks
      (IsoKernelState.init "anne" 2 (.int 2)) [[0], [1]] [[0], [1]] demoG
      fittedDemo false rfl [[1, 0, 1, 0], [0, 1, 0, 1]] rfl
      [1, 0, 1, 0] (by decide),
    C3_transform_rows_are_one_hot_blocks
      (IsoKernelState.init "anne" 2 (.int 2)) [[0], [1]] [[0], [1]] demoG
      fittedDemo false rfl [[1, 0, 1, 0], [0, 1, 0, 1]] rfl
      [0, 1, 0, 1] (by decide)⟩

theorem similarity_ok_spec (st : IsoKernelState) (Y : List Point)
    (S : List (List ℚ)) (hS : st.similarity Y = .ok S) :
    ∃ E, st.transform Y = .ok E ∧ S = pairwiseInnerDiv E st.n_estimators := by
  unfold IsoKernelState.similarity at hS
  split at hS
  · exact Except.noConfusion hS
  · rename_i E hE
    exact ⟨E, hE, (Except.ok.inj hS).symm⟩

theorem matGet_pairwise (E : List (List ℕ)) (t : ℤ) (i j : ℕ)
    (hi : i < E.length) (hj : j < E.length) :
    matGet (pairwiseInnerDiv E t) i j =
      (innerProd (E.getD i []) (E.getD j []) : ℚ) / (t : ℚ) := by
  unfold matGet pairwiseInnerDiv
  simp [List.getElem?_map, List.getElem?_eq_getElem hi,
    List.getElem?_eq_getElem hj, List.getD_eq_getElem?_getD]

theorem matGet_oob_row (S : List (List ℚ)) (i j : ℕ) (h : S.length ≤ i) :
    matGet S i j = 0 := by
  unfold matGet
  have hi : S[i]? = none := List.getElem?_eq_none (by simpa using h)
  rw [hi]
  rfl

theorem matGet_oob_col (S : List (List ℚ)) (i j : ℕ)
    (h : (S[i]?.getD []).length ≤ j) : matGet S i j = 0 := by
  unfold matGet
  have hj : (S[i]?.getD [])[j]? = none :=
    List.getElem?_eq_none (by simpa using h)
  rw [hj]
  rfl

theorem matGet_pairwise_oob (E : List (List ℕ)) (t : ℤ) (i j : ℕ)
    (h : E.length ≤ i ∨ E.length ≤ j) :
    matGet (pairwiseInnerDiv E t) i j = 0 := by
  rcases h with h | h
  · exact matGet_oob_row _ _ _ (by simpa [pairwiseInnerDiv] using h)
  · have hrow : ((pairwiseInnerDiv E t)[i]?.getD []).length ≤ E.length := by
      unfold pairwiseInnerDiv
      rw [List.getElem?_map]
      cases hEi : E[i]? <;> simp
    exact matGet_oob_col _ _ _ (le_trans hrow h)

theorem getD_map_embed (ens : List Partition) (Y : List Point) (i : ℕ)
    (hi : i < Y.length) :
    (Y.map (embedRow ens)).getD i [] = embedRow ens (Y.getD i []) := by
  rw [List.getD_eq_getElem?_getD, List.getD_eq_getElem?_getD,
    List.getElem?_map, List.getElem?_eq_getElem hi]
  simp [List.getElem?_eq_getElem hi]

theorem simEntry_props (ens : List Partition) (t : ℤ) (ht : 0 < t)
    (hlen : ens.length = t.toNat) (p q : Point) :
    0 ≤ (countAgree ens p q : ℚ) / (t : ℚ) ∧
      (countAgree ens p q : ℚ) / (t : ℚ) ≤ 1 ∧
      ((countAgree ens p q : ℚ) / (t : ℚ) = 1 ↔
        ∀ P ∈ ens, P.assign p = P.assign q) := by
  have htQ : (0 : ℚ) < (t : ℚ) := by exact_mod_cast ht
  have htop : ((t.toNat : ℚ)) = (t : ℚ) := by
    rw [← Int.cast_natCast, Int.toNat_of_nonneg ht.le]
  refine ⟨div_nonneg (by positivity) htQ.le, ?_, ?_⟩
  · rw [div_le_one htQ, ← htop]
    exact_mod_cast hlen ▸ countAgree_le ens p q
  · rw [div_eq_one_iff_eq (ne_of_gt htQ), ← htop, Nat.cast_inj, ← hlen]
    exact countAgree_eq_length_iff ens p q

/-- **C2**: for every fitted `IsoKernel` model and every input accepted by
`similarity`, the similarity matrix is symmetric, has unit diagonal, has all
entries in `[0, 1]`, and an entry equals `1` iff the two points fall in the
same cell for every estimator of the ensemble. -/
theorem C2_similarity_matrix_properties (st₀ : IsoKernelState)
    (X Y : List Point) (g : ℕ → Partition) (st : IsoKernelState) (w : Bool)
    (hfit : IsoKernelState.fit st₀ X g = (st, w, none))
    (ik : InnerKernel) (ens : List Partition)
    (hik : st.iso_kernel_ = some ik) (hens : ik.ensemble_ = some ens)
    (S : List (List ℚ)) (hS : st.similarity Y = .ok S) :
    (∀ i j, matGet S i j = matGet S j i) ∧
      (∀ i, i < Y.length → matGet S i i = 1) ∧
      (∀ i j, 0 ≤ matGet S i j ∧ matGet S i j ≤ 1) ∧
      (∀ i j, i < Y.length → j < Y.length →
        (matGet S i j = 1 ↔
          ∀ P ∈ ens, P.assign (Y.getD i []) = P.assign (Y.getD j []))) := by
  obtain ⟨ht, hne, hf, ms, hmspos, hmss, hikG⟩ := fit_ok_spec _ _ _ _ _ hfit
  rw [hik] at hikG
  have hikE := Option.some.inj hikG
  have hensG : ens = (List.range st₀.n_estimators.toNat).map g := by
    rw [hikE] at hens
    exact (Option.some.inj hens).symm
  have hlen : ens.length = st.n_estimators.toNat := by
    rw [hensG, hne]
    simp
  obtain ⟨E, hE, hSE⟩ := similarity_ok_spec st Y S hS
  have hEY := transform_ok_spec st Y ik ens E hik hens hE
  subst hSE
  subst hEY
  have htQ : 0 < st.n_estimators := hne ▸ ht
  have hElen : (Y.map (embedRow ens)).length = Y.length := by simp
  have hin : ∀ i j, i < Y.length → j < Y.length →
      matGet (pairwiseInnerDiv (Y.map (embedRow ens)) st.n_estimators) i j =
        (countAgree ens (Y.getD i []) (Y.getD j []) : ℚ) /
          (st.n_estimators : ℚ) := by
    intro i j hi hj
    rw [matGet_pairwise _ _ i j (hElen ▸ hi) (hElen ▸ hj),
      getD_map_embed ens Y i hi, getD_map_embed ens Y j hj,
      innerProd_embedRow]
  refine ⟨?_, ?_, ?_, ?_⟩
  · intro i j
    by_cases hi : i < Y.length
    · by_cases hj : j < Y.length
      · rw [hin i j hi hj, hin j i hj hi, countAgree_comm]
      · rw [matGet_pairwise_oob _ _ _ _ (Or.inr (by omega)),
          matGet_pairwise_oob _ _ _ _ (Or.inl (by omega))]
    · rw [matGet_pairwise_oob _ _ _ _ (Or.inl (by omega)),
        matGet_pairwise_oob _ _ _ _ (Or.inr (by omega))]
  · intro i hi
    rw [hin i i hi hi]
    exact (simEntry_props ens st.n_estimators htQ hlen _ _).2.2.mpr
      (fun P _ => rfl)
  · intro i j
    by_cases hi : i < Y.length
    · by_cases hj : j < Y.length
      · rw [hin i j hi hj]
        exact ⟨(simEntry_props ens st.n_estimators htQ hlen _ _).1,
          (simEntry_props ens st.n_estimators htQ hlen _ _).2.1⟩
      · rw [matGet_pairwise_oob _ _ _ _ (Or.inr (by omega))]
        norm_num
    · rw [matGet_pairwise_oob _ _ _ _ (Or.inl (by omega))]
      norm_num
  · intro i j hi hj
    rw [hin i j hi hj]
    exact (simEntry_props ens st.n_estimators htQ hlen _ _).2.2

/-- The ensemble held by `fittedDemo`: two copies of `demoPartition`. -/
def demoEnsemble : List Partition := (List.range (2 : ℤ).toNat).map demoG

/-- The similarity matrix `fittedDemo.similarity [[0], [1]]` returns. -/
def c2S : List (List ℚ) := pairwiseInnerDiv [[1, 0, 1, 0], [0, 1, 0, 1]] 2

/-- Witness for C2: the theorem applied to a concretely fitted model. -/
theorem C2_witness :
    (∀ i j, matGet c2S i j = matGet c2S j i) ∧
      (∀ i, i < ([[0], [1]] : List Point).length → matGet c2S i i = 1) ∧
      (∀ i j, 0 ≤ matGet c2S i j ∧ matGet c2S i j ≤ 1) ∧
      (∀ i j, i < ([[0], [1]] : List Point).length →
        j < ([[0], [1]] : List Point).length →
        (matGet c2S i j = 1 ↔ ∀ P ∈ demoEnsemble,
          P.assign (([[0], [1]] : List Point).getD i []) =
            P.assign (([[0], [1]] : List Point).getD j []))) :=
  C2_similarity_matrix_properties (IsoKernelState.init "anne" 2 (.int 2))
    [[0], [1]] [[0], [1]] demoG fittedDemo false rfl
    ⟨2, 2, some demoEnsemble⟩ demoEnsemble rfl rfl c2S rfl

theorem checkArray_pos (X : List Point) (hX : checkArray X = true) :
    0 < X.length := by
  unfold checkArray at hX
  simp only [Bool.and_eq_true, decide_eq_true_eq] at hX
  exact hX.1.1

/-- **C4**: for every accepted input `X`, `fit` with `max_samples="auto"`
resolves the subsample size to `min(16, n_samples)` and stores it as
`max_samples_`. -/
theorem C4_auto_resolves_to_min_16 (st₀ : IsoKernelState) (X : List Point)
    (g : ℕ → Partition) (hX : checkArray X = true)
    (hms : st₀.max_samples = MaxSamples.str "auto") :
    (IsoKernelState.fit st₀ X g).1.max_samples_ =
      some (min 16 (X.length : ℤ)) := by
  simp only [IsoKernelState.fit, hX, hms, resolveMaxSamples, if_true]
  split
  · split <;> simp
  · simp

/-- Witness for C4: a concrete `fit` call with `max_samples="auto"`. -/
theorem C4_witness :
    (IsoKernelState.fit (IsoKernelState.init "anne" 2 (.str "auto"))
        [[0], [1]] demoG).1.max_samples_ =
      some (min 16 (([[0], [1]] : List Point).length : ℤ)) :=
  C4_auto_resolves_to_min_16 (IsoKernelState.init "anne" 2 (.str "auto"))
    [[0], [1]] demoG rfl rfl

/-- **C5**: an integer `max_samples` strictly greater than `n_samples` does
not make `fit` raise: the clamp diagnostic is emitted and `max_samples_` is
set to `n_samples`, not the requested value. -/
theorem C5_oversized_int_clamps_with_warning (st₀ : IsoKernelState)
    (X : List Point) (g : ℕ → Partition) (m : ℤ) (hX : checkArray X = true)
    (hms : st₀.max_samples = MaxSamples.int m) (hm : (X.length : ℤ) < m)
    (hmethod : st₀.method = "anne" ∨ st₀.method = "inne" ∨
      st₀.method = "iforest")
    (ht : 0 < st₀.n_estimators) :
    ∃ st : IsoKernelState, IsoKernelState.fit st₀ X g = (st, true, none) ∧
      st.max_samples_ = some (X.length : ℤ) := by
  have hn : (0 : ℤ) < (X.length : ℤ) := by
    exact_mod_cast checkArray_pos X hX
  have hres : resolveMaxSamples st₀.max_samples (X.length : ℤ) =
      .ok ((X.length : ℤ), true) := by
    rw [hms]
    simp only [resolveMaxSamples]
    rw [if_pos hm]
  have hinner : (⟨st₀.n_estimators, (X.length : ℤ), none⟩ : InnerKernel).fit g =
      .ok ⟨st₀.n_estimators, (X.length : ℤ),
        some ((List.range st₀.n_estimators.toNat).map g)⟩ := by
    simp only [InnerKernel.fit]
    rw [if_neg (by omega), if_neg (by omega)]
  rcases hmethod with h | h | h <;>
    simp only [IsoKernelState.fit, hX, hres, h, hinner, if_true] <;>
    exact ⟨_, rfl, rfl⟩

/-- Witness for C5: `max_samples = 5` on two samples clamps to `2` with the
diagnostic emitted and no exception. -/
theorem C5_witness :
    ∃ st : IsoKernelState,
      IsoKernelState.fit (IsoKernelState.init "anne" 2 (.int 5)) [[0], [1]]
        demoG = (st, true, none) ∧
      st.max_samples_ = some (([[0], [1]] : List Point).length : ℤ) :=
  C5_oversized_int_clamps_with_warning (IsoKernelState.init "anne" 2 (.int 5))
    [[0], [1]] demoG 5 rfl rfl (by decide) (Or.inl rfl) (by decide)

/-- **C6**: a float `max_samples` outside `(0, 1]` makes `fit` raise a
configuration error before any attribute is assigned, while a float inside
`(0, 1]` is resolved proportionally to the number of samples. -/
theorem C6_float_range_check (st₀ : IsoKernelState) (X : List Point)
    (g : ℕ → Partition) (f : ℚ) (hX : checkArray X = true)
    (hms : st₀.max_samples = MaxSamples.float f) :
    (¬(0 < f ∧ f ≤ 1) →
      IsoKernelState.fit st₀ X g =
        (st₀, false,
          some (IKError.valueError "max_samples must be in (0, 1]"))) ∧
      ((0 < f ∧ f ≤ 1) →
        (IsoKernelState.fit st₀ X g).1.max_samples_ =
          some ⌊f * ((X.length : ℤ) : ℚ)⌋) := by
  constructor
  · intro hout
    simp only [IsoKernelState.fit, hX, hms, resolveMaxSamples, if_true,
      if_neg hout]
  · intro hin
    simp only [IsoKernelState.fit, hX, hms, resolveMaxSamples, if_true,
      if_pos hin]
    split
    · split <;> simp
    · simp

/-- Witness for C6: a concrete `fit` call with float `max_samples = 2`. -/
theorem C6_witness :
    (¬((0 : ℚ) < 2 ∧ (2 : ℚ) ≤ 1) →
      IsoKernelState.fit (IsoKernelState.init "anne" 2 (.float 2)) [[0], [1]]
          demoG =
        (IsoKernelState.init "anne" 2 (.float 2), false,
          some (IKError.valueError "max_samples must be in (0, 1]"))) ∧
      (((0 : ℚ) < 2 ∧ (2 : ℚ) ≤ 1) →
        (IsoKernelState.fit (IsoKernelState.init "anne" 2 (.float 2))
            [[0], [1]] demoG).1.max_samples_ =
          some ⌊(2 : ℚ) * ((([[0], [1]] : List Point).length : ℤ) : ℚ)⌋) :=
  C6_float_range_check (IsoKernelState.init "anne" 2 (.float 2)) [[0], [1]]
    demoG 2 rfl rfl

/-- **C7**: a configuration in which `max_samples` resolves to `0`, or one
with `n_estimators ≤ 0`, makes `fit` fail (an exception is raised and the
model is not marked fitted) rather than produce a degenerate model. -/
theorem C7_degenerate_config_fails (st₀ : IsoKernelState) (X : List Point)
    (g : ℕ → Partition) (w : Bool)
    (h : st₀.n_estimators ≤ 0 ∨
      resolveMaxSamples st₀.max_samples (X.length : ℤ) = .ok (0, w)) :
    (IsoKernelState.fit st₀ X g).2.2.isSome = true ∧
      (IsoKernelState.fit st₀ X g).1.is_fitted_ = st₀.is_fitted_ := by
  unfold IsoKernelState.fit
  split
  · split
    · simp
    · rename_i ms warned heq
      dsimp only
      split
      · split
        · simp
        · rename_i ikF hik
          exfalso
          obtain ⟨ht, hpsi, _⟩ := innerFit_ok _ _ _ hik
          dsimp only at ht hpsi
          rcases h with h | h
          · omega
          · rw [heq] at h
            have hms0 : ms = 0 := congrArg Prod.fst (Except.ok.inj h)
            omega
      · simp
  · simp

/-- Witness for C7: `n_estimators = 0` makes `fit` raise without marking the
model fitted. -/
theorem C7_witness :
    ((IsoKernelState.fit (IsoKernelState.init "anne" 0 (.int 2)) [[0], [1]]
        demoG).2.2.isSome = true) ∧
      (IsoKernelState.fit (IsoKernelState.init "anne" 0 (.int 2)) [[0], [1]]
          demoG).1.is_fitted_ =
        (IsoKernelState.init "anne" 0 (.int 2)).is_fitted_ :=
  C7_degenerate_config_fails (IsoKernelState.init "anne" 0 (.int 2))
    [[0], [1]] demoG false (Or.inl (by decide))

/-- A fresh, never-fitted estimator: no trailing-underscore attribute has
been assigned. -/
def Unfitted (st : IsoKernelState) : Prop :=
  st.max_samples_ = none ∧ st.iso_kernel_ = none ∧ st.is_fitted_ = false

theorem transform_no_kernel_not_ok (st : IsoKernelState)
    (hik : st.iso_kernel_ = none ∨
      ∃ ik, st.iso_kernel_ = some ik ∧ ik.ensemble_ = none) :
    ∀ Y E, st.transform Y ≠ .ok E := by
  intro Y E hok
  unfold IsoKernelState.transform at hok
  split at hok
  · split at hok
    · rcases hik with h | ⟨ik, h, hens⟩
      · simp only [h] at hok
        exact Except.noConfusion hok
      · simp only [h, InnerKernel.transform, hens] at hok
        exact Except.noConfusion hok
    · exact Except.noConfusion hok
  · exact Except.noConfusion hok

theorem similarity_not_ok_of_transform (st : IsoKernelState)
    (h : ∀ Y E, st.transform Y ≠ .ok E) :
    ∀ Y S, st.similarity Y ≠ .ok S := by
  intro Y S hok
  obtain ⟨E, hE, _⟩ := similarity_ok_spec st Y S hok
  exact h Y E hE

/-- **C8 (amended)**: on an `IsoKernel` instance on which `fit` has never
been called (no trailing-underscore attribute assigned), `transform` and
`similarity` raise the not-fitted precondition error, for every input; after
a *failed* `fit` that already assigned `max_samples_`, the calls still fail,
but not necessarily with the precondition error (see the counterexample). -/
theorem C8_amended_unfitted_calls_raise_precondition (st : IsoKernelState)
    (h : Unfitted st) : ∀ X : List Point,
    st.transform X = .error .notFitted ∧
      st.similarity X = .error .notFitted := by
  obtain ⟨h1, h2, h3⟩ := h
  intro X
  have hcf : checkIsFitted st = false := by
    unfold checkIsFitted
    rw [h1, h2, h3]
    rfl
  have htr : st.transform X = .error .notFitted := by
    unfold IsoKernelState.transform
    simp [hcf]
  refine ⟨htr, ?_⟩
  unfold IsoKernelState.similarity
  rw [htr]

/-- Witness for the amended C8: a freshly constructed estimator. -/
theorem C8_amended_witness :
    (IsoKernelState.init "anne" 200 (.str "auto")).transform [[0], [1]] =
        .error .notFitted ∧
      (IsoKernelState.init "anne" 200 (.str "auto")).similarity [[0], [1]] =
        .error .notFitted :=
  C8_amended_unfitted_calls_raise_precondition
    (IsoKernelState.init "anne" 200 (.str "auto")) ⟨rfl, rfl, rfl⟩ [[0], [1]]

/-- Counterexample to C8 as stated: on this instance `fit` was called but
raised (unrecognized method), so `fit` never succeeded; yet the subsequent
`transform` call does not raise the not-fitted precondition error — the
attribute scan of `check_is_fitted` is satisfied by the already-assigned
`max_samples_` — and the call fails with an attribute error instead. -/
theorem C8_counterexample :
    (IsoKernelState.fit (IsoKernelState.init "bogus" 200 (.int 2)) [[0], [1]]
        demoG).2.2 = some (IKError.valueError "method is not supported") ∧
      (IsoKernelState.fit (IsoKernelState.init "bogus" 200 (.int 2))
          [[0], [1]] demoG).1.transform [[0], [1]] =
        .error (IKError.attributeError "iso_kernel_") ∧
      IKError.attributeError "iso_kernel_" ≠ IKError.notFitted :=
  ⟨rfl, rfl, by decide⟩

/-- **C10 (amended)**: if `fit` on a fresh estimator raises, the model never
becomes fitted (`is_fitted_` is assigned only as the last step of a
successful fit), and every subsequent `transform` or `similarity` call fails
rather than returning a result; when the failure happened before
`max_samples_` was assigned, the failure is exactly the not-fitted
precondition error. -/
theorem C10_amended_failed_fit_never_fitted (st₀ : IsoKernelState)
    (X : List Point) (g : ℕ → Partition) (st : IsoKernelState) (w : Bool)
    (e : IKError) (hunf : Unfitted st₀)
    (hfit : IsoKernelState.fit st₀ X g = (st, w, some e)) :
    st.is_fitted_ = false ∧
      (∀ Y E, st.transform Y ≠ .ok E) ∧
      (∀ Y S, st.similarity Y ≠ .ok S) ∧
      (st.max_samples_ = none →
        ∀ Y, st.transform Y = .error .notFitted) := by
  obtain ⟨hu1, hu2, hu3⟩ := hunf
  have base : ∀ Y, st₀.transform Y = .error .notFitted := by
    intro Y
    exact (C8_amended_unfitted_calls_raise_precondition st₀
      ⟨hu1, hu2, hu3⟩ Y).1
  unfold IsoKernelState.fit at hfit
  split at hfit
  · split at hfit
    · rw [Prod.mk.injEq, Prod.mk.injEq] at hfit
      obtain ⟨rfl, -, -⟩ := hfit
      have hnot : ∀ Y E, st₀.transform Y ≠ .ok E :=
        transform_no_kernel_not_ok st₀ (Or.inl hu2)
      exact ⟨hu3, hnot, similarity_not_ok_of_transform st₀ hnot,
        fun _ => base⟩
    · rename_i ms warned heq
      dsimp only at hfit
      split at hfit
      · split at hfit
        · rw [Prod.mk.injEq, Prod.mk.injEq] at hfit
          obtain ⟨rfl, -, -⟩ := hfit
          refine ⟨hu3, ?_, ?_, ?_⟩
          · exact transform_no_kernel_not_ok _ (Or.inr ⟨_, rfl, rfl⟩)
          · exact similarity_not_ok_of_transform _
              (transform_no_kernel_not_ok _ (Or.inr ⟨_, rfl, rfl⟩))
          · intro hcontra
            exact absurd hcontra (by simp)
        · rw [Prod.mk.injEq, Prod.mk.injEq] at hfit
          exact absurd hfit.2.2 (by simp)
      · rw [Prod.mk.injEq, Prod.mk.injEq] at hfit
        obtain ⟨rfl, -, -⟩ := hfit
        refine ⟨hu3, ?_, ?_, ?_⟩
        · exact transform_no_kernel_not_ok _ (Or.inl hu2)
        · exact similarity_not_ok_of_transform _
            (transform_no_kernel_not_ok _ (Or.inl hu2))
        · intro hcontra
          exact absurd hcontra (by simp)
  · rw [Prod.mk.injEq, Prod.mk.injEq] at hfit
    obtain ⟨rfl, -, -⟩ := hfit
    have hnot : ∀ Y E, st₀.transform Y ≠ .ok E :=
      transform_no_kernel_not_ok st₀ (Or.inl hu2)
    exact ⟨hu3, hnot, similarity_not_ok_of_transform st₀ hnot,
      fun _ => base⟩

/-- Witness for the amended C10: a `fit` call that fails while resolving an
unsupported `max_samples` string. -/
theorem C10_amended_witness :
    (IsoKernelState.init "anne" 2 (.str "all")).is_fitted_ = false ∧
      (∀ Y E, (IsoKernelState.init "anne" 2 (.str "all")).transform Y ≠
        .ok E) ∧
      (∀ Y S, (IsoKernelState.init "anne" 2 (.str "all")).similarity Y ≠
        .ok S) ∧
      ((IsoKernelState.init "anne" 2 (.str "all")).max_samples_ = none →
        ∀ Y, (IsoKernelState.init "anne" 2 (.str "all")).transform Y =
          .error .notFitted) :=
  C10_amended_failed_fit_never_fitted
    (IsoKernelState.init "anne" 2 (.str "all")) [[0]] demoG
    (IsoKernelState.init "anne" 2 (.str "all")) false
    (IKError.valueError "max_samples (str) is not supported")
    ⟨rfl, rfl, rfl⟩ rfl

/-- Counterexample to C10 as stated: after this failed `fit` (unrecognized
method, raised after `max_samples_` was assigned) the model is indeed not
fitted, yet `similarity` does not raise the not-fitted precondition error:
the `check_is_fitted` attribute scan accepts `max_samples_`, and the call
fails with an attribute error instead. -/
theorem C10_counterexample :
    (IsoKernelState.fit (IsoKernelState.init "forest" 100 (.str "auto"))
        [[1], [2], [3]] demoG).2.2 =
      some (IKError.valueError "method is not supported") ∧
      (IsoKernelState.fit (IsoKernelState.init "forest" 100 (.str "auto"))
          [[1], [2], [3]] demoG).1.max_samples_ = some 3 ∧
      (IsoKernelState.fit (IsoKernelState.init "forest" 100 (.str "auto"))
          [[1], [2], [3]] demoG).1.similarity [[1], [2], [3]] ≠
        .error IKError.notFitted := by
  refine ⟨rfl, rfl, fun h => ?_⟩
  exact IKError.noConfusion (Except.error.inj h)

/-- A cluster of the IKDC result: its centroid's point index, the member
point indices, and the derived `n_points` count (spec §3 "Cluster"). -/
structure Cluster where
  centroid : ℕ
  members : List ℕ
deriving DecidableEq

/-- The `n_points` count of a cluster. -/
def Cluster.n_points (c : Cluster) : ℕ := c.members.length

/-- The clustering state IKDC emits: `labels_`, `clusters_` and the number
of refinement iterations executed (spec §3 "Clustering state"). -/
structure IKDCResult where
  labels_ : List ℕ
  clusters_ : List Cluster
  n_it : ℕ
deriving DecidableEq

/-- The clustering-only parameters of IKDC (spec §4.4). -/
structure IKDCParams where
  k : ℕ
  kn : ℕ
  v : ℚ
  n_init_samples : ℕ
  init_center : Option (List ℕ)
  is_post_process : Bool

/-- Greatest-score scan with ties kept on the earlier element. -/
def argmaxAux (f : ℕ → ℚ) : List ℕ → ℕ → ℕ
  | [], best => best
  | x :: xs, best => argmaxAux f xs (if f best < f x then x else best)

/-- Index of a maximal element of `l` under score `f`, ties broken toward
the earliest element; `d` when `l` is empty. -/
def argmaxQ (f : ℕ → ℚ) (l : List ℕ) (d : ℕ) : ℕ :=
  match l with
  | [] => d
  | x :: xs => argmaxAux f xs x

/-- Insertion into a descending-sorted list. -/
def insertDesc (x : ℚ) : List ℚ → List ℚ
  | [] => [x]
  | y :: ys => if y ≤ x then x :: y :: ys else y :: insertDesc x ys

/-- Descending insertion sort. -/
def sortDesc : List ℚ → List ℚ
  | [] => []
  | x :: xs => insertDesc x (sortDesc xs)

/-- Modelled from the spec (§4.4 step 2, Glossary "Density (local)"): the
IKDC source (`isoml.cluster`) is not in the snapshot.  Local density of
point `i` is the average similarity to its `kn` most similar other
points. -/
def density (S : ℕ → ℕ → ℚ) (n kn : ℕ) (i : ℕ) : ℚ :=
  if kn = 0 then 0
  else ((sortDesc (((List.range n).filter (fun j => j != i)).map
    (S i))).take kn).sum / (kn : ℚ)

/-- Kernel distance (`1 - similarity`) of candidate `c` to the nearest
already-chosen centroid (spec §4.4 step 3). -/
def minKDist (S : ℕ → ℕ → ℚ) (chosen : List ℕ) (c : ℕ) : ℚ :=
  (chosen.map (fun s => 1 - S c s)).foldr min 2

/-- Modelled from the spec (§4.4 step 3 and edge cases): greedily add the
candidate of maximal minimum kernel distance to the chosen centroids, among
pool points whose density exceeds the bound; an exhausted pool or a
duplicate (zero-distance) centroid is a degeneracy, modelled as a failure
since this embedding carries no randomness to re-sample with. -/
def greedyPick (S : ℕ → ℕ → ℚ) (dens : ℕ → ℚ) (bound : ℚ)
    (pool : List ℕ) (chosen : List ℕ) : ℕ → Except IKError (List ℕ)
  | 0 => .ok chosen.reverse
  | fuel + 1 =>
      match pool.filter (fun c => decide (bound < dens c) &&
          !(chosen.contains c)) with
      | [] => .error (.valueError "seed candidate pool exhausted")
      | c :: cs =>
          let best := argmaxQ (minKDist S chosen) (c :: cs) c
          if minKDist S chosen best ≤ 0 then
            .error (.valueError "degenerate duplicate centroid")
          else greedyPick S dens bound pool (best :: chosen) fuel

/-- Modelled from the spec (§4.4 step 3): the first seed is the densest
pool point; the remaining `k - 1` are picked greedily by maximal minimum
kernel distance among candidates denser than `v` times the maximum
density. -/
def selectSeeds (S : ℕ → ℕ → ℚ) (dens : ℕ → ℚ) (v : ℚ) (pool : List ℕ)
    (k : ℕ) : Except IKError (List ℕ) :=
  match pool with
  | [] => .error (.valueError "empty seed pool")
  | q :: qs =>
      let first := argmaxQ dens (q :: qs) q
      greedyPick S dens (v * dens first) (q :: qs) [first] (k - 1)

/-- Modelled from the spec (§4.4 step 4): assign every point to the
centroid of maximum similarity, ties toward the lowest cluster id. -/
def assignAll (S : ℕ → ℕ → ℚ) (n k : ℕ) (cents : List ℕ) : List ℕ :=
  (List.range n).map (fun i =>
    argmaxQ (fun j => S i (cents.getD j 0)) (List.range k) 0)

/-- Member indices of cluster `j` under `labels` over `n` points. -/
def membersOf (n k : ℕ) (labels : List ℕ) (j : ℕ) : List ℕ :=
  (List.range n).filter (fun i => labels.getD i k == j)

/-- Modelled from the spec (§4.4 step 4): discrete medoid update — the new
centroid of each cluster is the member of maximal total (hence average)
similarity to the cluster's members. -/
def recenter (S : ℕ → ℕ → ℚ) (n k : ℕ) (labels : List ℕ) : List ℕ :=
  (List.range k).map (fun j =>
    argmaxQ (fun m => ((membersOf n k labels j).map (fun m2 => S m m2)).sum)
      (membersOf n k labels j) 0)

/-- Every cluster id below `k` has at least one member point. -/
def clustersOk (n k : ℕ) (labels : List ℕ) : Bool :=
  (List.range k).all (fun j => !(membersOf n k labels j).isEmpty)

/-- The refinement loop's iteration cap (spec §5: the cap is the only
bounded-termination mechanism of the loop). -/
def ikdcMaxIter : ℕ := 100

/-- Modelled from the spec (§4.4 step 4, §7): one assign/recenter pass per
iteration until no point changes cluster or the cap is hit; an assignment
that leaves a cluster empty is a numerical degeneracy, modelled as a
failure (the spec resolves it by re-seeding, which randomness this
embedding does not carry).  Returns final labels, final centroids and the
number of iterations executed. -/
def refineLoop (S : ℕ → ℕ → ℚ) (n k : ℕ) (cents : List ℕ)
    (prev : List ℕ) (it : ℕ) : ℕ → Except IKError (List ℕ × List ℕ × ℕ)
  | 0 => .ok (prev, cents, it)
  | fuel + 1 =>
      let labels := assignAll S n k cents
      if clustersOk n k labels then
        if labels = prev then .ok (labels, cents, it + 1)
        else refineLoop S n k (recenter S n k labels) labels (it + 1) fuel
      else .error (.valueError "empty cluster during refinement")

/-- Modelled from the spec (§4.4 step 5): reassign each point whose density
is below `v` times the maximum density within its cluster to the cluster of
its most similar higher-density point. -/
def postProcess (S : ℕ → ℕ → ℚ) (dens : ℕ → ℚ) (n k : ℕ) (v : ℚ)
    (labels : List ℕ) : List ℕ :=
  (List.range n).map (fun i =>
    let j := labels.getD i k
    let maxd := ((membersOf n k labels j).map dens).foldr max 0
    if dens i < v * maxd then
      match (List.range n).filter (fun m => decide (dens i < dens m)) with
      | [] => j
      | h :: hs => labels.getD (argmaxQ (S i) (h :: hs) h) k
    else j)

/-- The labels IKDC finally emits: the refinement-loop labels, post-processed
when `post` is enabled (spec §4.4 steps 5-6). -/
def finalLabels (S : ℕ → ℕ → ℚ) (dens : ℕ → ℚ) (n k : ℕ) (v : ℚ)
    (post : Bool) (labels0 : List ℕ) : List ℕ :=
  if post then postProcess S dens n k v labels0 else labels0

/-- Modelled from the spec (§4.4): `IKDC.fit_predict` — fit the feature
mapper, compute the similarity matrix, select `k` seeds (an explicit
`init_center` overrides sampling; the candidate pool is the first
`n_init_samples` points, a deterministic stand-in for the random sample),
run the refinement loop, optionally post-process, and emit the clustering
state; a configuration or degeneracy failure at any stage aborts (spec
§7). -/
def IKDC.fitPredict (p : IKDCParams) (st₀ : IsoKernelState)
    (X : List Point) (g : ℕ → Partition) : Except IKError IKDCResult :=
  if p.k = 0 then .error (.valueError "k must be positive")
  else
    match IsoKernelState.fit st₀ X g with
    | (_, _, some e) => .error e
    | (stF, _, none) =>
        match stF.similarity X with
        | .error e => .error e
        | .ok Smat =>
            let n := X.length
            let S := fun i j => matGet Smat i j
            let dens := density S n (min p.kn (n - 1))
            let pool := (List.range n).take p.n_init_samples
            let seedsE : Except IKError (List ℕ) :=
              match p.init_center with
              | some ic =>
                  if ic.length = p.k then .ok ic
                  else .error (.valueError "init_center size mismatch")
              | none => selectSeeds S dens p.v pool p.k
            match seedsE with
            | .error e => .error e
            | .ok seeds =>
                match refineLoop S n p.k seeds (List.replicate n p.k) 0
                    ikdcMaxIter with
                | .error e => .error e
                | .ok (labels0, cents, nit) =>
                    let labels := finalLabels S dens n p.k p.v
                      p.is_post_process labels0
                    if labels.length = n ∧
                        labels.all (fun lb => decide (lb < p.k)) = true ∧
                        clustersOk n p.k labels = true then
                      .ok ⟨labels, (List.range p.k).map (fun j =>
                        ⟨cents.getD j 0, membersOf n p.k labels j⟩), nit⟩
                    else .error (.valueError "degenerate clustering")

example :
    IKDC.fitPredict ⟨1, 1, 0, 1, none, false⟩
      (IsoKernelState.init "anne" 1 (.int 1)) [[0]] demoG =
    .ok ⟨[0], [⟨0, [0]⟩], 2⟩ := by
  rfl

theorem argmaxAux_mem (f : ℕ → ℚ) (l : List ℕ) (b : ℕ) :
    argmaxAux f l b = b ∨ argmaxAux f l b ∈ l := by
  induction l generalizing b with
  | nil => exact Or.inl rfl
  | cons x xs ih =>
      unfold argmaxAux
      by_cases h : f b < f x
      · rw [if_pos h]
        rcases ih x with h' | h'
        · refine Or.inr ?_
          rw [h']
          exact List.mem_cons_self x xs
        · exact Or.inr (List.mem_cons_of_mem x h')
      · rw [if_neg h]
        rcases ih b with h' | h'
        · exact Or.inl h'
        · exact Or.inr (List.mem_cons_of_mem x h')

theorem argmaxQ_mem (f : ℕ → ℚ) (l : List ℕ) (d : ℕ) (h : l ≠ []) :
    argmaxQ f l d ∈ l := by
  cases l with
  | nil => exact absurd rfl h
  | cons x xs =>
      show argmaxAux f xs x ∈ x :: xs
      rcases argmaxAux_mem f xs x with h' | h'
      · rw [h']
        exact List.mem_cons_self x xs
      · exact List.mem_cons_of_mem x h'

theorem sum_map_add_nat {α : Type} (l : List α) (f g : α → ℕ) :
    (l.map (fun x => f x + g x)).sum = (l.map f).sum + (l.map g).sum := by
  induction l with
  | nil => rfl
  | cons a l ih =>
      simp only [List.map_cons, List.sum_cons, ih]
      omega

theorem sum_members_lengths {α : Type} (l : List α) (f : α → ℕ) (k : ℕ)
    (h : ∀ x ∈ l, f x < k) :
    ((List.range k).map
      (fun j => (l.filter (fun x => f x == j)).length)).sum = l.length := by
  induction l with
  | nil => simp
  | cons a l ih =>
      have ha := h a (List.mem_cons_self a l)
      have ih' := ih (fun x hx => h x (List.mem_cons_of_mem a hx))
      have hstep : ∀ j ∈ List.range k,
          ((a :: l).filter (fun x => f x == j)).length =
            (l.filter (fun x => f x == j)).length +
              (if j = f a then 1 else 0) := by
        intro j _
        rw [List.filter_cons]
        by_cases hj : f a = j
        · simp [hj]
        · simp [hj, Ne.symm hj]
      rw [List.map_congr_left hstep, sum_map_add_nat, ih',
        sum_indicator_range k (f a) ha]
      simp

theorem clustersOk_nonempty (n k : ℕ) (labels : List ℕ)
    (h : clustersOk n k labels = true) (j : ℕ) (hj : j < k) :
    0 < (membersOf n k labels j).length := by
  unfold clustersOk at h
  rw [List.all_eq_true] at h
  have h2 := h j (List.mem_range.mpr hj)
  simp only [Bool.not_eq_true', List.isEmpty_eq_false] at h2
  exact List.length_pos.mpr h2

theorem refineLoop_it_increases (S : ℕ → ℕ → ℚ) (n k : ℕ) :
    ∀ (fuel : ℕ) (cents prev : List ℕ) (it : ℕ) (L C : List ℕ) (m : ℕ),
      refineLoop S n k cents prev it fuel = .ok (L, C, m) →
      it ≤ m ∧ (0 < fuel → it < m) := by
  intro fuel
  induction fuel with
  | zero =>
      intro cents prev it L C m h
      unfold refineLoop at h
      have hm : it = m := congrArg (fun z => z.2.2) (Except.ok.inj h)
      exact ⟨hm ▸ le_refl it, fun h0 => absurd h0 (by omega)⟩
  | succ fuel ih =>
      intro cents prev it L C m h
      unfold refineLoop at h
      dsimp only at h
      split at h
      · split at h
        · have hm : it + 1 = m :=
            congrArg (fun z => z.2.2) (Except.ok.inj h)
          exact ⟨by omega, fun _ => by omega⟩
        · have h2 := ih _ _ _ _ _ _ h
          exact ⟨by omega, fun _ => by omega⟩
      · exact absurd h (by simp)

theorem getD_lt_of_all_lt (L : List ℕ) (k i : ℕ) (hi : i < L.length)
    (hall : L.all (fun lb => decide (lb < k)) = true) : L.getD i k < k := by
  have hg : L.getD i k = L[i] := by
    rw [List.getD_eq_getElem?_getD, List.getElem?_eq_getElem hi]
    rfl
  rw [hg, List.all_eq_true] at *
  exact of_decide_eq_true (hall _ (List.getElem_mem hi))

theorem finalCheck_result (n k : ℕ) (cents : List ℕ) (nit : ℕ)
    (L : List ℕ) (r : IKDCResult)
    (h : (if L.length = n ∧ L.all (fun lb => decide (lb < k)) = true ∧
          clustersOk n k L = true then
        Except.ok (⟨L, (List.range k).map (fun j =>
          ⟨cents.getD j 0, membersOf n k L j⟩), nit⟩ : IKDCResult)
      else Except.error (IKError.valueError "degenerate clustering")) =
        .ok r) :
    r.clusters_.length = k ∧ (∀ c ∈ r.clusters_, 0 < c.n_points) ∧
      (r.clusters_.map Cluster.n_points).sum = n ∧ r.n_it = nit := by
  split at h
  · rename_i hchk
    obtain ⟨hlen, hall, hok⟩ := hchk
    have hr := (Except.ok.inj h).symm
    subst hr
    refine ⟨by simp, ?_, ?_, rfl⟩
    · intro c hc
      rcases List.mem_map.mp hc with ⟨j, hj, rfl⟩
      exact clustersOk_nonempty _ _ _ hok j (List.mem_range.mp hj)
    · rw [List.map_map]
      have hlt : ∀ i ∈ List.range n, L.getD i k < k := by
        intro i hi
        exact getD_lt_of_all_lt L k i
          (by rw [hlen]; exact List.mem_range.mp hi) hall
      have hsum := sum_members_lengths (List.range n)
        (fun i => L.getD i k) k hlt
      simpa [membersOf, Cluster.n_points, Function.comp] using hsum
  · exact absurd h (by simp)

/-- **C9**: every successful run of `IKDC.fit_predict` with parameter `k`
ends with exactly `k` clusters, every cluster non-empty, the `n_points`
counts summing to `n_samples`, and `n_it > 0`. -/
theorem C9_fitPredict_postconditions (p : IKDCParams)
    (st₀ : IsoKernelState) (X : List Point) (g : ℕ → Partition)
    (r : IKDCResult) (h : IKDC.fitPredict p st₀ X g = .ok r) :
    r.clusters_.length = p.k ∧
      (∀ c ∈ r.clusters_, 0 < c.n_points) ∧
      (r.clusters_.map Cluster.n_points).sum = X.length ∧
      0 < r.n_it := by
  unfold IKDC.fitPredict at h
  split at h
  · exact absurd h (by simp)
  · split at h
    · exact absurd h (by simp)
    · rename_i stF wF hfitr
      split at h
      · exact absurd h (by simp)
      · rename_i Smat hSmat
        dsimp only at h
        split at h
        · exact absurd h (by simp)
        · rename_i seeds hseeds
          split at h
          · exact absurd h (by simp)
          · rename_i labels0 cents nit href
            have hfin := finalCheck_result X.length p.k cents nit _ r h
            refine ⟨hfin.1, hfin.2.1, hfin.2.2.1, ?_⟩
            rw [hfin.2.2.2]
            exact (refineLoop_it_increases _ _ _ ikdcMaxIter _ _ _ _ _ _
              href).2 (by decide)

/-- The IKDC parameters of the concrete witness run: `k=1`, `kn=1`, `v=0`,
`n_init_samples=1`, no explicit seeds, no post-processing. -/
def c9P : IKDCParams := ⟨1, 1, 0, 1, none, false⟩

/-- The clustering state the concrete witness run produces. -/
def c9R : IKDCResult := ⟨[0], [⟨0, [0]⟩], 2⟩

/-- Witness for C9: the theorem applied to a concrete successful run. -/
theorem C9_witness :
    c9R.clusters_.length = c9P.k ∧
      (∀ c ∈ c9R.clusters_, 0 < c.n_points) ∧
      (c9R.clusters_.map Cluster.n_points).sum =
        ([[0]] : List Point).length ∧
      0 < c9R.n_it :=
  C9_fitPredict_postconditions c9P (IsoKernelState.init "anne" 1 (.int 1))
    [[0]] demoG c9R rfl
